import Mathlib

/-!
Shallow embedding of the core logic of the market-research web application
(`app.py`): brand matching, address parsing, ZIP extraction, the analyze
cross-referencer, the batch search call budget, and the flat-file JSON store.
Python strings are Lean `String`s; Python truthiness of a string is emptiness;
Python `in` on strings is substring containment.
-/

namespace MarketResearch

/-- The apostrophe character (written numerically to keep source literals plain). -/
def apos : Char := Char.ofNat 39

/-- `isSubstrOf needle hay`: Python `needle in hay` at the character-list level. -/
def isSubstrOf (needle : List Char) : List Char → Bool
  | [] => needle.isEmpty
  | c :: t => needle.isPrefixOf (c :: t) || isSubstrOf needle t

/-- Python `needle in hay` on strings. -/
def strContains (hay needle : String) : Bool :=
  isSubstrOf needle.data hay.data

/-- Python `str.lower()` (ASCII letters; the data involved is ASCII). -/
def pyLower (s : String) : String :=
  String.mk (s.data.map Char.toLower)

/-- Python `str.strip()`: drop whitespace from both ends (char-list level, so the
kernel can evaluate it). -/
def pyStrip (s : String) : String :=
  String.mk (((s.data.dropWhile Char.isWhitespace).reverse.dropWhile Char.isWhitespace).reverse)

/-- Split a character list at every character satisfying `p`, keeping empty pieces
(the char-list analogue of splitting on a separator). -/
def splitWhen (p : Char → Bool) : List Char → List (List Char)
  | [] => [[]]
  | c :: t =>
    if p c then [] :: splitWhen p t
    else
      match splitWhen p t with
      | [] => [[c]]
      | h :: r => (c :: h) :: r

/-- Python `s.split(',')`: split on commas, keeping empty pieces. -/
def pySplitComma (s : String) : List String :=
  (splitWhen (fun c => c == Char.ofNat 44) s.data).map String.mk

/-- Python `str.split()` with no argument: split on whitespace runs, dropping empties. -/
def pySplitWS (s : String) : List String :=
  ((splitWhen Char.isWhitespace s.data).map String.mk).filter (fun t => !t.isEmpty)

/-- The `excluded_names` reseller/department-store denylist of `is_official_brand_store`. -/
def excluded_names : List String :=
  ["macy", "nordstrom", "dillard", "bloomingdale", "saks", "neiman marcus",
   "kohls", "jcpenney", "tj maxx", "marshalls", "ross dress", "burlington",
   "target", "walmart", "costco", "sam" ++ String.singleton apos ++ "s club",
   "amazon hub", "belk"]

/-- The `variant_prefixes` list of `is_official_brand_store`. -/
def variantPrefixList : List String := ["polo", "factory", "outlet", "ralph", "lauren"]

/-- Embedding of `is_official_brand_store(place_name, retailer_name)` from `app.py`. -/
def is_official_brand_store (place_name retailer_name : String) : Bool :=
  if place_name = "" then false
  else
    let name_l := pyLower place_name
    let brand_l := pyStrip (pyLower retailer_name)
    if excluded_names.any (fun x => strContains name_l x) then false
    else if strContains name_l brand_l then true
    else
      let brand_tokens := (pySplitWS brand_l).filter (fun t => t.length > 2)
      if brand_tokens.any (fun token => strContains name_l token) then true
      else
        let tokens := (pySplitWS brand_l).filter (fun t => !t.isEmpty)
        if tokens.length ≥ 2 && tokens.all (fun t => strContains name_l t) then true
        else if variantPrefixList.any (fun vp =>
            strContains name_l (vp ++ " " ++ brand_l) ||
            brand_tokens.any (fun token => strContains name_l (vp ++ " " ++ token))) then
          true
        else false

/-- The example place name of the spec, with its apostrophe. -/
def macysExample : String := "Macy" ++ String.singleton apos ++ "s Ralph Lauren Outlet"

/-- The empty list of characters is a substring of every character list. -/
theorem isSubstrOf_nil (hay : List Char) : isSubstrOf [] hay = true := by
  cases hay <;> rfl

/-- C1: if the lowercased place name contains a denylist entry, the brand matcher
returns `false` regardless of any positive signal; in particular on the
"Macy's Ralph Lauren Outlet" / "Ralph Lauren" example. -/
theorem brand_denylist_dominance :
    (∀ place_name retailer_name : String,
      excluded_names.any (fun x => strContains (pyLower place_name) x) = true →
      is_official_brand_store place_name retailer_name = false) ∧
    is_official_brand_store macysExample "Ralph Lauren" = false := by
  constructor
  · intro place_name retailer_name h
    unfold is_official_brand_store
    split
    · rfl
    · simp only [h, if_true]
  · decide

/-- Witness for C1 at a concrete denylisted place name. -/
theorem brand_denylist_dominance_witness :
    is_official_brand_store "Target Ralph Lauren" "Ralph Lauren" = false :=
  brand_denylist_dominance.1 "Target Ralph Lauren" "Ralph Lauren" (by decide)

/-- C10: for a non-empty place name with no denylist hit, a retailer name that is
empty or whitespace-only makes the brand matcher accept: the trimmed lowercased
brand is the empty string, a substring of everything. -/
theorem blank_retailer_accepts_everything (place_name retailer_name : String)
    (h1 : place_name ≠ "")
    (h2 : excluded_names.any (fun x => strContains (pyLower place_name) x) = false)
    (h3 : pyStrip (pyLower retailer_name) = "") :
    is_official_brand_store place_name retailer_name = true := by
  unfold is_official_brand_store
  rw [if_neg h1]
  simp only [h2, h3]
  have hsub : strContains (pyLower place_name) "" = true := isSubstrOf_nil _
  simp [hsub]

/-- Witness for C10: whitespace-only retailer name accepts "Nike Store". -/
theorem blank_retailer_accepts_everything_witness :
    is_official_brand_store "Nike Store" "   " = true :=
  blank_retailer_accepts_everything "Nike Store" "   " (by decide) (by decide) (by decide)

/-! ### Address Parser (`_parse_address_components`) -/

/-- Match of `\d{4}` against exactly the whole of `cs`. -/
def fourDigits (cs : List Char) : Bool :=
  match cs with
  | [e1, e2, e3, e4] => e1.isDigit && e2.isDigit && e3.isDigit && e4.isDigit
  | _ => false

/-- Match of `\d{5}(?:-\d{4})?$` against the whole of `cs`. -/
def zipEnd (cs : List Char) : Bool :=
  match cs with
  | d1 :: d2 :: d3 :: d4 :: d5 :: rest =>
    d1.isDigit && d2.isDigit && d3.isDigit && d4.isDigit && d5.isDigit &&
      (rest.isEmpty ||
        (match rest with
         | h :: t => h == Char.ofNat 45 && fourDigits t
         | [] => false))
  | _ => false

/-- Embedding of `re.match(r'^([A-Z]{2})\s+(\d{5}(?:-\d{4})?)$', s)`: on success,
returns (group 1 = state letters, group 2 = ZIP). The greedy `\s+` consumes the
maximal whitespace run; since the ZIP group starts with a digit, no backtracking
into the whitespace is possible. -/
def matchStateZip (cs : List Char) : Option (List Char × List Char) :=
  match cs with
  | c1 :: c2 :: rest =>
    if c1.isUpper && c2.isUpper then
      let ws := rest.takeWhile Char.isWhitespace
      let rem := rest.dropWhile Char.isWhitespace
      if ws.isEmpty then none
      else if zipEnd rem then some ([c1, c2], rem) else none
    else none
  | _ => none

/-- Embedding of `re.match(r'^([A-Z]{2})', s)` (unanchored at the right). -/
def matchTwoUpper (cs : List Char) : Option (List Char) :=
  match cs with
  | c1 :: c2 :: _ => if c1.isUpper && c2.isUpper then some [c1, c2] else none
  | _ => none

/-- Tail of the two-part fallback regex: `\s+([A-Z]{2})\s+(\d{5}(?:-\d{4})?)$`. -/
def matchStateZipTail (cs : List Char) : Option (List Char × List Char) :=
  let ws := cs.takeWhile Char.isWhitespace
  let rem := cs.dropWhile Char.isWhitespace
  if ws.isEmpty then none else matchStateZip rem

/-- Embedding of `re.match(r'^(.+?)\s+([A-Z]{2})\s+(\d{5}(?:-\d{4})?)$', s)`: the
lazy group 1 takes the shortest non-empty prefix whose remainder matches the
tail; returns (city prefix, state letters, ZIP). -/
def matchCityStateZip : List Char → List Char → Option (List Char × List Char × List Char)
  | _, [] => none
  | pre, c :: rest =>
    match matchStateZipTail rest with
    | some (st, zp) => some (pre ++ [c], st, zp)
    | none => matchCityStateZip (pre ++ [c]) rest

/-- Embedding of `_parse_address_components(formatted_address)` from `app.py`:
split on commas, strip each part; with ≥ 3 parts take street/city from the first
two and state/ZIP from the third (falling back to just a leading two-letter
state); with exactly 2 parts try the trailing `city STATE ZIP` regex. -/
def _parse_address_components (formatted_address : String) :
    String × String × String × String :=
  if formatted_address = "" then ("", "", "", "")
  else
    let parts := (pySplitComma formatted_address).map pyStrip
    match parts with
    | p0 :: p1 :: p2 :: _ =>
      let street_address := pyStrip p0
      let city := pyStrip p1
      let state_zip_part := pyStrip p2
      (match matchStateZip state_zip_part.data with
       | some (st, zp) => (street_address, city, String.mk st, String.mk zp)
       | none =>
         match matchTwoUpper state_zip_part.data with
         | some st => (street_address, city, String.mk st, "")
         | none => (street_address, city, "", ""))
    | [p0, p1] =>
      let street_address := pyStrip p0
      let city_part := pyStrip p1
      (match matchCityStateZip [] city_part.data with
       | some (cty, st, zp) =>
         (street_address, pyStrip (String.mk cty), String.mk st, String.mk zp)
       | none => (street_address, "", "", ""))
    | _ => ("", "", "", "")

/-- C2: when the address splits on commas into at least three stripped parts and
the third matches `STATE ZIP`, the parser returns street = part 0, city = part 1
and that state and ZIP; when the third part does not match, only a leading
two-letter state is extracted and the ZIP is empty. -/
theorem parse_address_three_parts (addr p0 p1 p2 : String) (rest : List String)
    (hsplit : (pySplitComma addr).map pyStrip = p0 :: p1 :: p2 :: rest) :
    (∀ st zp, matchStateZip (pyStrip p2).data = some (st, zp) →
      _parse_address_components addr = (pyStrip p0, pyStrip p1, String.mk st, String.mk zp)) ∧
    (matchStateZip (pyStrip p2).data = none →
      _parse_address_components addr =
        (pyStrip p0, pyStrip p1,
          (match matchTwoUpper (pyStrip p2).data with
           | some st => String.mk st
           | none => ""), "")) := by
  have haddr : addr ≠ "" := by
    intro he
    rw [he] at hsplit
    simp [pySplitComma, splitWhen, pyStrip] at hsplit
  constructor
  · intro st zp hm
    unfold _parse_address_components
    rw [if_neg haddr]
    simp only [hsplit, hm]
  · intro hm
    unfold _parse_address_components
    rw [if_neg haddr]
    simp only [hsplit, hm]
    cases hmt : matchTwoUpper (pyStrip p2).data <;> simp [hmt]

/-- Witness for C2: the spec's example address parses to the expected quadruple,
both through the matching branch and, on a non-matching third part, through the
state-only fallback. -/
theorem parse_address_three_parts_witness :
    _parse_address_components "123 Main St, Springfield, IL 62701, USA" =
      ("123 Main St", "Springfield", "IL", "62701") ∧
    _parse_address_components "123 Main St, Springfield, ILX, USA" =
      ("123 Main St", "Springfield", "IL", "") := by
  constructor
  · have h := (parse_address_three_parts "123 Main St, Springfield, IL 62701, USA"
      "123 Main St" "Springfield" "IL 62701" ["USA"] (by decide)).1
      ['I', 'L'] ['6', '2', '7', '0', '1'] (by decide)
    exact h.trans (by decide)
  · have h := (parse_address_three_parts "123 Main St, Springfield, ILX, USA"
      "123 Main St" "Springfield" "ILX" ["USA"] (by decide)).2 (by decide)
    exact h.trans (by decide)

/-! ### ZIP extraction (`_extract_zip_from_address`) -/

/-- Regex word character `\w` (ASCII): letter, digit or underscore. -/
def isWordChar (c : Char) : Bool := c.isAlphanum || c == Char.ofNat 95

/-- Match of `(\d{5})` at the start of `cs`: the five digits and the remainder. -/
def takeFiveDigits (cs : List Char) : Option (List Char × List Char) :=
  match cs with
  | d1 :: d2 :: d3 :: d4 :: d5 :: rest =>
    if d1.isDigit && d2.isDigit && d3.isDigit && d4.isDigit && d5.isDigit then
      some ([d1, d2, d3, d4, d5], rest)
    else none
  | _ => none

/-- Left word boundary of the ZIP pattern: since the first pattern character is a
digit (a word character), `\b` holds iff the preceding character is absent or a
non-word character. -/
def zipBoundaryOk (prev : Option Char) : Bool :=
  match prev with
  | none => true
  | some c => !isWordChar c

/-- Right end of the ZIP pattern after the five digits: greedily try `-\d{4}\b`,
falling back (regex backtracking over the optional group) to `\b` right after the
fifth digit. Both right boundaries follow a digit, so `\b` holds iff the string
ends or the next character is a non-word character. -/
def zipExtOk (rest : List Char) : Bool :=
  (match rest with
   | h :: e1 :: e2 :: e3 :: e4 :: rest2 =>
     h == Char.ofNat 45 && e1.isDigit && e2.isDigit && e3.isDigit && e4.isDigit &&
       (match rest2 with
        | [] => true
        | c :: _ => !isWordChar c)
   | _ => false) ||
  (match rest with
   | [] => true
   | c :: _ => !isWordChar c)

/-- Attempted match of `\b(\d{5})(?:-\d{4})?\b` at a fixed position; `prev` is the
character just before the position (`none` at the start of the string). On
success, returns group 1: the five digits. -/
def zipMatchAt (prev : Option Char) (cs : List Char) : Option (List Char) :=
  if zipBoundaryOk prev then
    match takeFiveDigits cs with
    | some (digs, rest) => if zipExtOk rest then some digs else none
    | none => none
  else none

/-- Embedding of `re.search(r"\b(\d{5})(?:-\d{4})?\b", address)`: scan left to
right for the first position where the pattern matches. -/
def zipSearch (prev : Option Char) : List Char → Option (List Char)
  | [] => none
  | c :: rest =>
    match zipMatchAt prev (c :: rest) with
    | some z => some z
    | none => zipSearch (some c) rest

/-- Embedding of `_extract_zip_from_address(address)` from `app.py`. -/
def _extract_zip_from_address (address : String) : String :=
  if address = "" then ""
  else
    match zipSearch none address.data with
    | some z => String.mk z
    | none => ""

/-- The five characters produced by `takeFiveDigits` are digits. -/
theorem takeFiveDigits_spec (cs digs rest : List Char)
    (h : takeFiveDigits cs = some (digs, rest)) :
    digs.length = 5 ∧ digs.all Char.isDigit = true := by
  unfold takeFiveDigits at h
  split at h
  · split at h
    · rename_i hguard
      obtain ⟨h1, _⟩ := Prod.mk.inj (Option.some.inj h)
      subst h1
      simp only [Bool.and_eq_true] at hguard
      refine ⟨rfl, ?_⟩
      simp [List.all_cons, hguard.1.1.1.1, hguard.1.1.1.2, hguard.1.1.2, hguard.1.2, hguard.2]
    · cases h
  · cases h

/-- A successful position match yields exactly the five digits of group 1. -/
theorem zipMatchAt_digits (prev : Option Char) (cs z : List Char)
    (h : zipMatchAt prev cs = some z) :
    z.length = 5 ∧ z.all Char.isDigit = true := by
  unfold zipMatchAt at h
  by_cases hb : zipBoundaryOk prev = true
  · rw [if_pos hb] at h
    cases heq : takeFiveDigits cs with
    | none =>
      simp only [heq] at h
      cases h
    | some pr =>
      obtain ⟨digs, rest⟩ := pr
      simp only [heq] at h
      by_cases he : zipExtOk rest = true
      · rw [if_pos he] at h
        obtain rfl := Option.some.inj h
        exact takeFiveDigits_spec cs digs rest heq
      · rw [if_neg he] at h
        cases h
  · rw [if_neg hb] at h
    cases h

/-- A successful search yields exactly five digits. -/
theorem zipSearch_digits (cs : List Char) :
    ∀ prev z, zipSearch prev cs = some z → z.length = 5 ∧ z.all Char.isDigit = true := by
  induction cs with
  | nil => intro prev z h; simp [zipSearch] at h
  | cons c rest ih =>
    intro prev z h
    unfold zipSearch at h
    cases hm : zipMatchAt prev (c :: rest) with
    | some w =>
      rw [hm] at h
      obtain rfl := Option.some.inj h
      exact zipMatchAt_digits _ _ _ hm
    | none =>
      rw [hm] at h
      exact ih _ _ h

/-- C6: `_extract_zip_from_address` always returns either the empty string or a
string of exactly five digits; a ZIP+4 such as "62701-1234" is truncated to its
first five digits, and the empty address yields the empty string. -/
theorem extract_zip_normal_form :
    (∀ address : String,
      _extract_zip_from_address address = "" ∨
      ((_extract_zip_from_address address).data.length = 5 ∧
        (_extract_zip_from_address address).data.all Char.isDigit = true)) ∧
    _extract_zip_from_address "62701-1234" = "62701" ∧
    _extract_zip_from_address "" = "" := by
  refine ⟨?_, by decide, rfl⟩
  intro address
  unfold _extract_zip_from_address
  split
  · exact Or.inl rfl
  · cases hz : zipSearch none address.data with
    | none => exact Or.inl rfl
    | some z =>
      right
      have h := zipSearch_digits address.data none z hz
      simpa using h

/-! ### Flat-File Store (`_load_db`, `_save_db`, `_load_markets_db`, `_save_markets_db`)

The files hold JSON text parsed and produced by the external `json` library;
serialization is modelled at the JSON-value level: a file is absent, present but
unreadable/corrupt (a failing `json.load`), or holds a parsed JSON value. -/

/-- JSON values as exchanged with the `json` library. -/
inductive Json where
  | null
  | bool (b : Bool)
  | num (n : Int)
  | str (s : String)
  | arr (elems : List Json)
  | obj (fields : List (String × Json))

/-- State of one backing JSON file. -/
inductive FileState where
  | missing
  | corrupt
  | json (v : Json)

/-- The two flat files of the application. -/
structure DbFiles where
  retailerFile : FileState
  marketsFile : FileState

/-- Embedding of `_load_db()`: a missing file returns `[]`; a failing `json.load`
is caught by the bare `except` and returns `[]`; otherwise the parsed value is
returned. The file is opened read-only, so the file state is unchanged. -/
def _load_db (s : DbFiles) : Json × DbFiles :=
  (match s.retailerFile with
   | .missing => .arr []
   | .corrupt => .arr []
   | .json v => v,
   s)

/-- Embedding of `_save_db(records)`: open with mode `'w'` (truncate) and write
the JSON dump of `records`, replacing whatever was there. -/
def _save_db (records : List Json) (s : DbFiles) : DbFiles :=
  { s with retailerFile := .json (.arr records) }

/-- Embedding of `_load_markets_db()`, same shape as `_load_db` on the markets file. -/
def _load_markets_db (s : DbFiles) : Json × DbFiles :=
  (match s.marketsFile with
   | .missing => .arr []
   | .corrupt => .arr []
   | .json v => v,
   s)

/-- Embedding of `_save_markets_db(records)`. -/
def _save_markets_db (records : List Json) (s : DbFiles) : DbFiles :=
  { s with marketsFile := .json (.arr records) }

/-- C7: saving a list of records and loading it back yields exactly the same
records, in the same order, and the save touches only the retailer file. -/
theorem save_load_roundtrip (records : List Json) (s : DbFiles) :
    (_load_db (_save_db records s)).1 = Json.arr records ∧
    (_save_db records s).marketsFile = s.marketsFile :=
  ⟨rfl, rfl⟩

/-- C8: loading from a missing or corrupt file returns the empty collection
instead of raising, and loading never writes: the file state is unchanged. -/
theorem load_total_on_missing_or_corrupt (s : DbFiles) :
    (s.retailerFile = .missing ∨ s.retailerFile = .corrupt →
      (_load_db s).1 = Json.arr []) ∧
    (s.marketsFile = .missing ∨ s.marketsFile = .corrupt →
      (_load_markets_db s).1 = Json.arr []) ∧
    (_load_db s).2 = s ∧ (_load_markets_db s).2 = s := by
  refine ⟨?_, ?_, rfl, rfl⟩
  · rintro (h | h) <;> simp [_load_db, h]
  · rintro (h | h) <;> simp [_load_markets_db, h]

/-- Witness for C8 on a corrupt retailer file and a missing markets file. -/
theorem load_total_on_missing_or_corrupt_witness :
    (_load_db { retailerFile := .corrupt, marketsFile := .missing }).1 = Json.arr [] ∧
    (_load_markets_db { retailerFile := .corrupt, marketsFile := .missing }).1 = Json.arr [] ∧
    (_load_db { retailerFile := .corrupt, marketsFile := .missing }).2 =
      { retailerFile := .corrupt, marketsFile := .missing } := by
  have h := load_total_on_missing_or_corrupt
    { retailerFile := .corrupt, marketsFile := .missing }
  exact ⟨h.1 (Or.inr rfl), h.2.1 (Or.inl rfl), h.2.2.1⟩

/-! ### Soft-delete / restore (`remove_retailer`, `restore_retailer`)

Retailer records are Python dicts; they are modelled as association lists with
insertion-order semantics: assignment replaces in place or appends, `del`
removes the entry. -/

/-- A Python dict with string keys in insertion order (keys unique). -/
abbrev Dict := List (String × Json)

/-- `d.get(k)`. -/
def dictGet (d : Dict) (k : String) : Option Json :=
  match d with
  | [] => none
  | (k2, v) :: t => if k2 = k then some v else dictGet t k

/-- `d[k] = v`: replace in place if the key exists, else append. -/
def dictSet (d : Dict) (k : String) (v : Json) : Dict :=
  match d with
  | [] => [(k, v)]
  | (k2, w) :: t => if k2 = k then (k2, v) :: t else (k2, w) :: dictSet t k v

/-- `del d[k]`. -/
def dictDel (d : Dict) (k : String) : Dict :=
  match d with
  | [] => []
  | (k2, w) :: t => if k2 = k then dictDel t k else (k2, w) :: dictDel t k

/-- Python truthiness of a JSON value. -/
def pyTruthy : Json → Bool
  | .null => false
  | .bool b => b
  | .num n => !(n == 0)
  | .str s => !(s == "")
  | .arr l => !l.isEmpty
  | .obj l => !l.isEmpty

/-- `r.get('removed', False)` as a truth value. -/
def isRemoved (r : Dict) : Bool :=
  match dictGet r "removed" with
  | some v => pyTruthy v
  | none => false

/-- `len([r for r in retailer_data if not r.get('removed', False)])`, the
active-retailer count reported by both endpoints. -/
def active_retailer_count (db : List Dict) : Nat :=
  (db.filter (fun r => !isRemoved r)).length

/-- Embedding of the core of `remove_retailer`: with an in-range index, set the
`removed` flag and the `removed_date` timestamp on that record and save the
list; an out-of-range index is rejected (`none`). -/
def remove_retailer (db : List Dict) (idx : Nat) (now : String) : Option (List Dict) :=
  match db[idx]? with
  | none => none
  | some r =>
    some (db.set idx (dictSet (dictSet r "removed" (.bool true)) "removed_date" (.str now)))

/-- Embedding of the core of `restore_retailer`: with an in-range index, set the
`removed` flag to `False`, drop `removed_date` when present, and save. -/
def restore_retailer (db : List Dict) (idx : Nat) : Option (List Dict) :=
  match db[idx]? with
  | none => none
  | some r =>
    let r1 := dictSet r "removed" (.bool false)
    let r2 := if (dictGet r1 "removed_date").isSome then dictDel r1 "removed_date" else r1
    some (db.set idx r2)

/-- Reading the key just assigned returns the assigned value. -/
theorem dictGet_set_same (d : Dict) (k : String) (v : Json) :
    dictGet (dictSet d k v) k = some v := by
  induction d with
  | nil => simp [dictSet, dictGet]
  | cons h t ih =>
    obtain ⟨k2, w⟩ := h
    by_cases hk : k2 = k <;> simp [dictSet, dictGet, hk, ih]

/-- Assignment to one key leaves every other key unchanged. -/
theorem dictGet_set_ne (d : Dict) (k k2 : String) (v : Json) (hne : k ≠ k2) :
    dictGet (dictSet d k v) k2 = dictGet d k2 := by
  induction d with
  | nil => simp [dictSet, dictGet, hne]
  | cons h t ih =>
    obtain ⟨k3, w⟩ := h
    by_cases hk : k3 = k
    · subst hk
      simp [dictSet, dictGet, hne]
    · simp [dictSet, dictGet, hk, ih]

/-- Deletion of one key leaves every other key unchanged. -/
theorem dictGet_del_ne (d : Dict) (k k2 : String) (hne : k ≠ k2) :
    dictGet (dictDel d k) k2 = dictGet d k2 := by
  induction d with
  | nil => simp [dictDel]
  | cons h t ih =>
    obtain ⟨k3, w⟩ := h
    by_cases hk : k3 = k
    · subst hk
      simp [dictDel, dictGet, hne, ih]
    · simp [dictDel, dictGet, hk, ih]

/-- Replacing one element shifts the filtered length by the predicate values of
the old and new element. -/
theorem filter_length_set (p : Dict → Bool) :
    ∀ (db : List Dict) (idx : Nat) (r r2 : Dict), db[idx]? = some r →
      ((db.set idx r2).filter p).length + (if p r then 1 else 0)
        = (db.filter p).length + (if p r2 then 1 else 0) := by
  intro db
  induction db with
  | nil => intro idx r r2 h; simp at h
  | cons a t ih =>
    intro idx r r2 h
    cases idx with
    | zero =>
      simp only [List.getElem?_cons_zero, Option.some.injEq] at h
      subst h
      simp only [List.set_cons_zero, List.filter_cons]
      by_cases ha : p a <;> by_cases hr2 : p r2 <;> simp [ha, hr2]
    | succ n =>
      simp only [List.getElem?_cons_succ] at h
      simp only [List.set_cons_succ, List.filter_cons]
      have hih := ih n r r2 h
      by_cases ha : p a <;> simp [ha] <;> omega

/-- C9: removing a retailer at a valid index sets its `removed` flag to true with
a removal timestamp, excluding it from the active-retailer count; restoring sets
the flag back to false so the record is counted again; across the cycle every
other field of the record (in particular its store data) and every other record
of the collection are unchanged. -/
theorem soft_delete_restore_cycle (db db1 db2 : List Dict) (idx : Nat) (now : String)
    (r r1 r2 : Dict)
    (hidx : db[idx]? = some r)
    (h1 : remove_retailer db idx now = some db1)
    (h2 : restore_retailer db1 idx = some db2)
    (hr1 : db1[idx]? = some r1)
    (hr2 : db2[idx]? = some r2) :
    dictGet r1 "removed" = some (.bool true) ∧
    dictGet r1 "removed_date" = some (.str now) ∧
    isRemoved r1 = true ∧
    dictGet r2 "removed" = some (.bool false) ∧
    isRemoved r2 = false ∧
    (∀ k, k ≠ "removed" → k ≠ "removed_date" → dictGet r2 k = dictGet r k) ∧
    (∀ j, j ≠ idx → db2[j]? = db[j]?) ∧
    active_retailer_count db1 + (if isRemoved r then 0 else 1) = active_retailer_count db ∧
    active_retailer_count db2 = active_retailer_count db1 + 1 := by
  have hlt : idx < db.length := by
    rcases List.getElem?_eq_some_iff.1 hidx with ⟨h, _⟩
    exact h
  have hne1 : ("removed_date" : String) ≠ "removed" := by decide
  have hne2 : ("removed" : String) ≠ "removed_date" := by decide
  set rRem := dictSet (dictSet r "removed" (.bool true)) "removed_date" (.str now)
    with hRemDef
  unfold remove_retailer at h1
  simp only [hidx] at h1
  obtain rfl := (Option.some.inj h1).symm
  have hr1calc : (db.set idx rRem)[idx]? = some rRem := List.getElem?_set_self hlt
  obtain rfl := Option.some.inj (hr1calc.symm.trans hr1)
  have g1 : dictGet rRem "removed" = some (.bool true) := by
    rw [hRemDef, dictGet_set_ne _ _ _ _ hne1, dictGet_set_same]
  have g2 : dictGet rRem "removed_date" = some (.str now) := by
    rw [hRemDef]
    exact dictGet_set_same _ _ _
  have g3 : isRemoved rRem = true := by
    unfold isRemoved
    rw [g1]
    rfl
  unfold restore_retailer at h2
  simp only [hr1] at h2
  have hdate : dictGet (dictSet rRem "removed" (.bool false)) "removed_date"
      = some (.str now) := by
    rw [dictGet_set_ne _ _ _ _ hne2]
    exact g2
  simp only [hdate, Option.isSome_some, if_true] at h2
  set rRes := dictDel (dictSet rRem "removed" (.bool false)) "removed_date" with hResDef
  obtain rfl := (Option.some.inj h2).symm
  have hlt1 : idx < (db.set idx rRem).length := by
    simpa using hlt
  have hr2calc : ((db.set idx rRem).set idx rRes)[idx]? = some rRes :=
    List.getElem?_set_self hlt1
  obtain rfl := Option.some.inj (hr2calc.symm.trans hr2)
  have g4 : dictGet rRes "removed" = some (.bool false) := by
    rw [hResDef, dictGet_del_ne _ _ _ hne1, dictGet_set_same]
  have g5 : isRemoved rRes = false := by
    unfold isRemoved
    rw [g4]
    rfl
  refine ⟨g1, g2, g3, g4, g5, ?_, ?_, ?_, ?_⟩
  · intro k hk1 hk2
    rw [hResDef, dictGet_del_ne _ _ _ (Ne.symm hk2), dictGet_set_ne _ _ _ _ (Ne.symm hk1),
      hRemDef, dictGet_set_ne _ _ _ _ (Ne.symm hk2), dictGet_set_ne _ _ _ _ (Ne.symm hk1)]
  · intro j hj
    rw [List.getElem?_set_ne (Ne.symm hj), List.getElem?_set_ne (Ne.symm hj)]
  · have c1 := filter_length_set (fun x => !isRemoved x) db idx r rRem hidx
    unfold active_retailer_count
    simp only [← hRemDef]
    simp only [g3] at c1
    by_cases hrem : isRemoved r <;> simp [hrem] at c1 ⊢ <;> omega
  · have c2 := filter_length_set (fun x => !isRemoved x) (db.set idx rRem) idx rRem rRes hr1
    unfold active_retailer_count
    simp only [← hRemDef]
    simp only [g3, g5] at c2
    simpa using c2

/-- A sample persisted retailer record. -/
def sampleRecord : Dict := [("name", Json.str "A"), ("stores", Json.arr [Json.str "s"])]

/-- `sampleRecord` after `remove_retailer` with timestamp "T". -/
def sampleRemoved : Dict :=
  [("name", Json.str "A"), ("stores", Json.arr [Json.str "s"]),
   ("removed", Json.bool true), ("removed_date", Json.str "T")]

/-- `sampleRemoved` after `restore_retailer`. -/
def sampleRestored : Dict :=
  [("name", Json.str "A"), ("stores", Json.arr [Json.str "s"]), ("removed", Json.bool false)]

/-- Witness for C9 on a one-record database. -/
theorem soft_delete_restore_cycle_witness :
    dictGet sampleRemoved "removed" = some (.bool true) ∧
    dictGet sampleRemoved "removed_date" = some (.str "T") ∧
    isRemoved sampleRemoved = true ∧
    dictGet sampleRestored "removed" = some (.bool false) ∧
    isRemoved sampleRestored = false ∧
    dictGet sampleRestored "stores" = dictGet sampleRecord "stores" ∧
    active_retailer_count [sampleRemoved] + (if isRemoved sampleRecord then 0 else 1)
      = active_retailer_count [sampleRecord] ∧
    active_retailer_count [sampleRestored] = active_retailer_count [sampleRemoved] + 1 := by
  have h := soft_delete_restore_cycle [sampleRecord] [sampleRemoved] [sampleRestored] 0 "T"
    sampleRecord sampleRemoved sampleRestored rfl rfl rfl rfl rfl
  exact ⟨h.1, h.2.1, h.2.2.1, h.2.2.2.1, h.2.2.2.2.1,
    h.2.2.2.2.2.1 "stores" (by decide) (by decide),
    h.2.2.2.2.2.2.2.1, h.2.2.2.2.2.2.2.2⟩

/-! ### Batch search call budget (the `search_stores` route loop)

Each invocation of `search_retailer_stores` is one counted external-service
call (the loop increments `api_calls_made` once per invocation, as the source
comments: "Count each search as an API call"); the external service itself is an
oracle parameter. `search_retailer_stores` catches all its own exceptions and
returns a list, so an invocation never raises into the loop. -/

/-- `max_api_calls = 200`. -/
def max_api_calls : Nat := 200

/-- A place as returned by the external places service (the fields the loop
reads); `formatted_address` is `none` when the key is absent. -/
structure PlaceStore where
  name : String
  address : String
  formatted_address : Option String
  place_id : String

/-- A `clean_store` record as assembled by the loop (the identifying fields). -/
structure CleanStore where
  name : String
  address : String
  formatted_address : String
  city : String
  state : String
  zip_code : String
  place_id : String
  retailer_name : String

/-- `store.get('formatted_address', store.get('address', ''))`. -/
def effFormattedAddr (p : PlaceStore) : String :=
  match p.formatted_address with
  | some fa => fa
  | none => p.address

/-- Assembly of `clean_store` from a place: parse the formatted address into
street/city/state/ZIP components. -/
def mkCleanStore (retailer : String) (p : PlaceStore) : CleanStore :=
  let formatted_addr := effFormattedAddr p
  let parsed := _parse_address_components formatted_addr
  { name := p.name, address := parsed.1, formatted_address := formatted_addr,
    city := parsed.2.1, state := parsed.2.2.1, zip_code := parsed.2.2.2,
    place_id := p.place_id, retailer_name := retailer }

/-- Mutable state of the batch search loop. -/
structure SearchState where
  api_calls_made : Nat
  seen_place_ids : List String
  all_stores : List CleanStore

/-- The per-place dedup loop: a place whose `place_id` was already seen is
skipped; otherwise its clean store is appended to both the global and the
per-retailer lists and the id is recorded. -/
def addStores (retailer : String) (stores : List PlaceStore) (st : SearchState)
    (retailer_stores : List CleanStore) : SearchState × List CleanStore :=
  match stores with
  | [] => (st, retailer_stores)
  | p :: rest =>
    if st.seen_place_ids.contains p.place_id then
      addStores retailer rest st retailer_stores
    else
      let c := mkCleanStore retailer p
      addStores retailer rest
        { st with all_stores := st.all_stores ++ [c],
                  seen_place_ids := st.seen_place_ids ++ [p.place_id] }
        (retailer_stores ++ [c])

/-- The inner location loop for one retailer: before each location, if
`api_calls_made >= max_api_calls` the remaining locations are skipped (`break`);
otherwise invoke the search, count the call, and merge its stores. -/
def runLocations (oracle : String → String × Nat → List PlaceStore) (retailer : String) :
    List (String × Nat) → SearchState → List CleanStore → SearchState × List CleanStore
  | [], st, rs => (st, rs)
  | loc :: rest, st, rs =>
    if max_api_calls ≤ st.api_calls_made then (st, rs)
    else
      let stores := oracle retailer loc
      let st1 := { st with api_calls_made := st.api_calls_made + 1 }
      let next := addStores retailer stores st1 rs
      runLocations oracle retailer rest next.1 next.2

/-- The outer retailer loop: each retailer runs the location loop (starting a
fresh per-retailer list) and records its results. -/
def runRetailers (oracle : String → String × Nat → List PlaceStore)
    (locations : List (String × Nat)) :
    List String → SearchState → List (String × List CleanStore) →
      SearchState × List (String × List CleanStore)
  | [], st, acc => (st, acc)
  | rname :: rest, st, acc =>
    let stepped := runLocations oracle rname locations st []
    runRetailers oracle locations rest stepped.1 (acc ++ [(rname, stepped.2)])

/-- Embedding of the batch search over all (retailer, location) pairs, starting
from zero calls made. -/
def search_stores (oracle : String → String × Nat → List PlaceStore)
    (retailer_names : List String) (search_locations : List (String × Nat)) :
    SearchState × List (String × List CleanStore) :=
  runRetailers oracle search_locations retailer_names
    { api_calls_made := 0, seen_place_ids := [], all_stores := [] } []

/-- The dedup loop does not touch the call counter. -/
theorem addStores_calls (retailer : String) (stores : List PlaceStore) :
    ∀ (st : SearchState) (rs : List CleanStore),
      (addStores retailer stores st rs).1.api_calls_made = st.api_calls_made := by
  induction stores with
  | nil => intro st rs; rfl
  | cons p rest ih =>
    intro st rs
    unfold addStores
    split
    · exact ih st rs
    · rw [ih]

/-- The location loop keeps the call counter at or below the cap. -/
theorem runLocations_le (oracle : String → String × Nat → List PlaceStore)
    (retailer : String) (locs : List (String × Nat)) :
    ∀ (st : SearchState) (rs : List CleanStore),
      st.api_calls_made ≤ max_api_calls →
      (runLocations oracle retailer locs st rs).1.api_calls_made ≤ max_api_calls := by
  induction locs with
  | nil => intro st rs h; exact h
  | cons loc rest ih =>
    intro st rs h
    unfold runLocations
    by_cases hc : max_api_calls ≤ st.api_calls_made
    · rw [if_pos hc]
      exact h
    · rw [if_neg hc]
      apply ih
      rw [addStores_calls]
      show st.api_calls_made + 1 ≤ max_api_calls
      omega

/-- The retailer loop keeps the call counter at or below the cap. -/
theorem runRetailers_le (oracle : String → String × Nat → List PlaceStore)
    (locations : List (String × Nat)) (names : List String) :
    ∀ (st : SearchState) (acc : List (String × List CleanStore)),
      st.api_calls_made ≤ max_api_calls →
      (runRetailers oracle locations names st acc).1.api_calls_made ≤ max_api_calls := by
  induction names with
  | nil => intro st acc h; exact h
  | cons rname rest ih =>
    intro st acc h
    unfold runRetailers
    exact ih _ _ (runLocations_le oracle rname locations st [] h)

/-- C4: the batch search makes at most `max_api_calls` counted external calls,
and once the counter has reached the cap every remaining location of the current
retailer is skipped with no error and no change to the gathered results. -/
theorem search_call_budget (oracle : String → String × Nat → List PlaceStore)
    (retailer_names : List String) (search_locations : List (String × Nat)) :
    (search_stores oracle retailer_names search_locations).1.api_calls_made
      ≤ max_api_calls ∧
    (∀ (rname : String) (locs : List (String × Nat)) (st : SearchState)
        (rs : List CleanStore),
      max_api_calls ≤ st.api_calls_made →
      runLocations oracle rname locs st rs = (st, rs)) := by
  constructor
  · exact runRetailers_le oracle search_locations retailer_names _ [] (by simp)
  · intro rname locs st rs h
    cases locs with
    | nil => rfl
    | cons loc rest =>
      unfold runLocations
      rw [if_pos h]

/-- Witness for C4: with the budget exhausted, a further location is skipped
and the state is returned untouched. -/
theorem search_call_budget_witness :
    runLocations (fun _ _ => []) "Nike" [("Boston, MA", 50000)]
      { api_calls_made := 200, seen_place_ids := [], all_stores := [] } [] =
      ({ api_calls_made := 200, seen_place_ids := [], all_stores := [] }, []) :=
  (search_call_budget (fun _ _ => []) [] []).2 "Nike" [("Boston, MA", 50000)]
    { api_calls_made := 200, seen_place_ids := [], all_stores := [] } [] (by decide)

/-! ### Cross-Referencer / Analyzer (`analyze`)

Python dicts keyed by ZIP or city are modelled as insertion-ordered association
lists, so iteration order matches dict semantics. A missing string field is the
empty string (`.get(..., '')`; `x or y` on strings picks the first non-empty). -/

/-- Lexicographic strict order on character lists (Python string `<`). -/
def charListLT : List Char → List Char → Bool
  | [], [] => false
  | [], _ :: _ => true
  | _ :: _, [] => false
  | a :: as, b :: bs =>
    if a.val < b.val then true
    else if b.val < a.val then false
    else charListLT as bs

/-- Lexicographic order on character lists (Python string `<=`). -/
def charListLE : List Char → List Char → Bool
  | [], _ => true
  | _ :: _, [] => false
  | a :: as, b :: bs =>
    if a.val < b.val then true
    else if b.val < a.val then false
    else charListLE as bs

/-- Python tuple `<=` on `(name, count)` pairs, as used by `sorted(d.items())`. -/
def pairLE (a b : String × Nat) : Bool :=
  charListLT a.1.data b.1.data || (a.1 == b.1 && Nat.ble a.2 b.2)

/-- Stable insertion into a sorted list under a boolean `le`. -/
def insertSortedBy {α : Type} (le : α → α → Bool) (a : α) : List α → List α
  | [] => [a]
  | b :: l => if le a b then a :: b :: l else b :: insertSortedBy le a l

/-- Stable sort under a boolean `le` (the semantics of Python `sorted`). -/
def sortBy {α : Type} (le : α → α → Bool) : List α → List α
  | [] => []
  | b :: l => insertSortedBy le b (sortBy le l)

/-- A store inside a new-style retailer record (the fields `analyze` reads). -/
structure StoreRec where
  name : String
  formatted_address : String
  address : String
  city : String
  state : String
deriving DecidableEq

/-- The fields of an old-style (flat) retailer entry that `analyze` reads. -/
structure OldEntry where
  name : String
  google_name : String
  formatted_address : String
  address : String
  google_formatted_address : String
  city : String
  state : String
deriving DecidableEq

/-- A persisted retailer entry: new style (`'stores' in retailer_entry`) holds a
store array, old style is a flat store record. -/
inductive RetailerEntry where
  | newStyle (stores : List StoreRec)
  | oldStyle (e : OldEntry)
deriving DecidableEq

/-- One uploaded market row; `zipCodesField`/`zipCodeField` are the values under
the `'Zip Codes'` / `'Zip Code'` headers (empty when missing). -/
structure MarketRow where
  city : String
  state : String
  zipCodesField : String
  zipCodeField : String
deriving DecidableEq

/-- `store.get('formatted_address') or store.get('address', '')`. -/
def storeAddr (s : StoreRec) : String :=
  if s.formatted_address = "" then s.address else s.formatted_address

/-- Old style: `entry.get('name') or entry.get('google_store', {}).get('name', '')`. -/
def oldName (e : OldEntry) : String :=
  if e.name = "" then e.google_name else e.name

/-- Old style, ZIP-map pass: `entry.get('formatted_address') or
entry.get('address') or entry.get('google_store', {}).get('formatted_address', '')`. -/
def oldAddr (e : OldEntry) : String :=
  if e.formatted_address = "" then
    (if e.address = "" then e.google_formatted_address else e.address)
  else e.formatted_address

/-- Old style, city/state fallback passes: `entry.get('formatted_address') or
entry.get('address', '')` (no google_store fallback there). -/
def oldAddrShort (e : OldEntry) : String :=
  if e.formatted_address = "" then e.address else e.formatted_address

/-- `(row.get('Zip Codes') or row.get('Zip Code') or '').strip()`. -/
def rowZipStr (row : MarketRow) : String :=
  pyStrip (if row.zipCodesField = "" then row.zipCodeField else row.zipCodesField)

/-- `[z.strip() for z in zip_codes_str.split(',') if z.strip()]`. -/
def zipListOf (s : String) : List String :=
  ((pySplitComma s).map pyStrip).filter (fun z => !(z == ""))

/-- Per-ZIP retailer-name counts, in dict insertion order. -/
abbrev CountMap := List (String × Nat)

/-- `m[k] = m.get(k, 0) + 1`, preserving insertion order. -/
def bumpCount (m : CountMap) (k : String) : CountMap :=
  match m with
  | [] => [(k, 1)]
  | (k2, n) :: t => if k2 = k then (k2, n + 1) :: t else (k2, n) :: bumpCount t k

/-- `retailer_by_zip`: ZIP → per-retailer-name counts, in insertion order. -/
abbrev ZipMap := List (String × CountMap)

/-- Count one store named `nm` at ZIP `z`. -/
def addZipName (m : ZipMap) (z nm : String) : ZipMap :=
  match m with
  | [] => [(z, [(nm, 1)])]
  | (z2, cm) :: t =>
    if z2 = z then (z2, bumpCount cm nm) :: t else (z2, cm) :: addZipName t z nm

/-- Process one store: extract its ZIP; skip when ZIP or name is missing. -/
def processStore (m : ZipMap) (nm addr : String) : ZipMap :=
  let z := _extract_zip_from_address addr
  if z = "" || nm = "" then m else addZipName m z nm

/-- First pass of `analyze`: build `retailer_by_zip` from all retailer records. -/
def buildZipMap (records : List RetailerEntry) : ZipMap :=
  records.foldl
    (fun m e =>
      match e with
      | .newStyle stores => stores.foldl (fun m s => processStore m s.name (storeAddr s)) m
      | .oldStyle e => processStore m (oldName e) (oldAddr e))
    []

/-- `all_market_zips`: every ZIP appearing in any market row (used only through
membership, so the Python set is a list here). -/
def allMarketZips (rows : List MarketRow) : List String :=
  rows.foldl (fun acc row => acc ++ zipListOf (rowZipStr row)) []

/-- City for a ZIP from the market rows: the stripped `City` of the first row
whose ZIP list contains it (empty when no row matches or the city is blank —
Python treats both as unset). -/
def cityFromMarkets (rows : List MarketRow) (z : String) : String :=
  match rows with
  | [] => ""
  | row :: rest =>
    if (zipListOf (rowZipStr row)).contains z then pyStrip row.city
    else cityFromMarkets rest z

/-- City fallback inside one new-style store list: the first store at this ZIP
with a raw non-empty city stops the scan (`break`); its stripped city may still
be empty. -/
def cityFromStoreList (z : String) : List StoreRec → Option String
  | [] => none
  | s :: rest =>
    if _extract_zip_from_address (storeAddr s) == z && !(s.city == "") then
      some (pyStrip s.city)
    else cityFromStoreList z rest

/-- City fallback over the retailer records: a new-style hit with a
whitespace-only city only breaks the inner loop, so the scan continues with the
next record; an old-style hit breaks the outer loop unconditionally. -/
def cityFromRecords (z : String) : List RetailerEntry → String
  | [] => ""
  | .newStyle stores :: rest =>
    (match cityFromStoreList z stores with
     | some c => if c == "" then cityFromRecords z rest else c
     | none => cityFromRecords z rest)
  | .oldStyle e :: rest =>
    if _extract_zip_from_address (oldAddrShort e) == z && !(e.city == "") then pyStrip e.city
    else cityFromRecords z rest

/-- State for a ZIP from the market rows (same shape as the city lookup). -/
def stateFromMarkets (rows : List MarketRow) (z : String) : String :=
  match rows with
  | [] => ""
  | row :: rest =>
    if (zipListOf (rowZipStr row)).contains z then pyStrip row.state
    else stateFromMarkets rest z

/-- State fallback inside one new-style store list. -/
def stateFromStoreList (z : String) : List StoreRec → Option String
  | [] => none
  | s :: rest =>
    if _extract_zip_from_address (storeAddr s) == z && !(s.state == "") then
      some (pyStrip s.state)
    else stateFromStoreList z rest

/-- State fallback over the retailer records (same break structure as the city
fallback). -/
def stateFromRecords (z : String) : List RetailerEntry → String
  | [] => ""
  | .newStyle stores :: rest =>
    (match stateFromStoreList z stores with
     | some c => if c == "" then stateFromRecords z rest else c
     | none => stateFromRecords z rest)
  | .oldStyle e :: rest =>
    if _extract_zip_from_address (oldAddrShort e) == z && !(e.state == "") then pyStrip e.state
    else stateFromRecords z rest

/-- Resolved city for a ZIP: markets first, then store records, else the
synthetic `"ZIP <code>"` label. -/
def resolveCity (rows : List MarketRow) (records : List RetailerEntry) (z : String) : String :=
  let c1 := cityFromMarkets rows z
  let c2 := if c1 == "" then cityFromRecords z records else c1
  if c2 == "" then "ZIP " ++ z else c2

/-- Resolved state for a ZIP: markets first, then store records, else empty. -/
def resolveState (rows : List MarketRow) (records : List RetailerEntry) (z : String) : String :=
  let s1 := stateFromMarkets rows z
  if s1 == "" then stateFromRecords z records else s1

/-- Aggregated per-city data (`city_aggregated_data` values). -/
structure CityData where
  retailers : CountMap
  zip_codes : List String
  is_reflex_market : Bool
  state : String
deriving DecidableEq

/-- `city_aggregated_data`, in dict insertion order. -/
abbrev CityMap := List (String × CityData)

/-- `m[k] = m.get(k, 0) + n`. -/
def bumpCountBy (m : CountMap) (k : String) (n : Nat) : CountMap :=
  match m with
  | [] => [(k, n)]
  | (k2, c) :: t => if k2 = k then (k2, c + n) :: t else (k2, c) :: bumpCountBy t k n

/-- Merge the per-ZIP retailer counts into a city's counts. -/
def addCounts (cm : CountMap) (adds : CountMap) : CountMap :=
  adds.foldl (fun acc p => bumpCountBy acc p.1 p.2) cm

/-- `set.add`: the set is only read through `sorted(list(...))`, so it is a
duplicate-free list here. -/
def addToSet (l : List String) (z : String) : List String :=
  if l.contains z then l else l ++ [z]

/-- One iteration of the city-aggregation loop body on `city_aggregated_data`:
initialize the city entry if absent (recording the state), merge the retailer
counts, add the ZIP, and raise the reflex flag when the ZIP is a market ZIP. -/
def updateCity (cm : CityMap) (city state : String) (adds : CountMap) (z : String)
    (isMkt : Bool) : CityMap :=
  match cm with
  | [] =>
    [(city, { retailers := addCounts [] adds, zip_codes := addToSet [] z,
              is_reflex_market := false || isMkt, state := state })]
  | (c2, d) :: t =>
    if c2 = city then
      (c2, { retailers := addCounts d.retailers adds,
             zip_codes := addToSet d.zip_codes z,
             is_reflex_market := d.is_reflex_market || isMkt,
             state := d.state }) :: t
    else (c2, d) :: updateCity t city state adds z isMkt

/-- One iteration of the city-aggregation loop for `(z, retailers)`. -/
def aggStep (rows : List MarketRow) (records : List RetailerEntry) (mzips : List String)
    (cm : CityMap) (z : String) (retailers : CountMap) : CityMap :=
  updateCity cm (resolveCity rows records z) (resolveState rows records z) retailers z
    (mzips.contains z)

/-- Second pass of `analyze`: fold the per-ZIP counts into per-city data. -/
def buildCityMap (rows : List MarketRow) (records : List RetailerEntry) : CityMap :=
  (buildZipMap records).foldl
    (fun cm q => aggStep rows records (allMarketZips rows) cm q.1 q.2) []

/-- `', '.join(l)`. -/
def joinComma (l : List String) : String :=
  match l with
  | [] => ""
  | h :: t => t.foldl (fun acc s => acc ++ ", " ++ s) h

/-- One output row of `analyze`. -/
structure ResultRow where
  city : String
  state : String
  prioritized_zip_codes : String
  retailers : String
  total_stores : Nat
  is_reflex_market : Bool
deriving DecidableEq

/-- Build one output row from a city's aggregated data: retailers sorted by
name with `(count)` suffixes when above one, the first five sorted ZIPs, and
the summed store count. -/
def mkResultRow (city : String) (d : CityData) : ResultRow :=
  let retailer_list := (sortBy pairLE d.retailers).map
    (fun p => if 1 < p.2 then p.1 ++ " (" ++ toString p.2 ++ ")" else p.1)
  let zip_codes_list := (sortBy (fun a b : String => charListLE a.data b.data) d.zip_codes).take 5
  { city := city, state := d.state,
    prioritized_zip_codes := joinComma zip_codes_list,
    retailers := joinComma retailer_list,
    total_stores := d.retailers.foldl (fun acc p => acc + p.2) 0,
    is_reflex_market := d.is_reflex_market }

/-- The `analyze` rows in city encounter order, before the final sort; with no
markets data or no retailer data the request aborts with an empty result list. -/
def analyzeRows (markets_rows : List MarketRow) (retailer_records : List RetailerEntry) :
    List ResultRow :=
  if markets_rows.isEmpty then []
  else if retailer_records.isEmpty then []
  else (buildCityMap markets_rows retailer_records).map (fun p => mkResultRow p.1 p.2)

/-- `results.sort(key=lambda x: x['Total Stores'], reverse=True)` sorts
descending by total stores: row `a` may precede row `b` iff `b`'s total is at
most `a`'s. -/
def resultsLE (a b : ResultRow) : Prop := b.total_stores ≤ a.total_stores

instance : DecidableRel resultsLE := fun a b => Nat.decLe b.total_stores a.total_stores

instance : IsTotal ResultRow resultsLE :=
  ⟨fun a b => Nat.le_total b.total_stores a.total_stores⟩

instance : IsTrans ResultRow resultsLE :=
  ⟨fun _ _ _ hab hbc => Nat.le_trans hbc hab⟩

/-- Embedding of `analyze` (core computation): Python `list.sort` is a stable
sort, so any stable sort under the same key order is extensionally equal;
insertion sort is used here. -/
def analyze (markets_rows : List MarketRow) (retailer_records : List RetailerEntry) :
    List ResultRow :=
  List.insertionSort resultsLE (analyzeRows markets_rows retailer_records)

/-- Adding to the ZIP set updates `any` by the membership test of the new ZIP. -/
theorem any_addToSet (l : List String) (z : String) (f : String → Bool) :
    (addToSet l z).any f = (l.any f || f z) := by
  unfold addToSet
  by_cases hm : l.contains z = true
  · rw [if_pos hm]
    by_cases hf : f z = true
    · have hz : z ∈ l := List.elem_iff.1 hm
      have hl : l.any f = true := List.any_eq_true.2 ⟨z, hz, hf⟩
      simp [hl, hf]
    · simp [Bool.not_eq_true] at hf
      simp [hf]
  · rw [if_neg hm]
    simp

/-- The reflex-market invariant: the flag of every city equals "some ZIP of the
city is a market ZIP"; one aggregation step preserves it. -/
theorem updateCity_reflex (mzips : List String) (cm : CityMap) (city state : String)
    (adds : CountMap) (z : String)
    (hinv : ∀ p ∈ cm, p.2.is_reflex_market = p.2.zip_codes.any (fun w => mzips.contains w)) :
    ∀ p ∈ updateCity cm city state adds z (mzips.contains z),
      p.2.is_reflex_market = p.2.zip_codes.any (fun w => mzips.contains w) := by
  induction cm with
  | nil =>
    intro p hp
    simp only [updateCity, List.mem_singleton] at hp
    subst hp
    simp [any_addToSet]
  | cons q t ih =>
    intro p hp
    obtain ⟨c2, d⟩ := q
    unfold updateCity at hp
    by_cases hc : c2 = city
    · rw [if_pos hc] at hp
      rcases List.mem_cons.1 hp with rfl | hmem
      · have hd := hinv (c2, d) (List.mem_cons_self _ _)
        simp only at hd ⊢
        rw [any_addToSet, ← hd]
      · exact hinv p (List.mem_cons_of_mem _ hmem)
    · rw [if_neg hc] at hp
      rcases List.mem_cons.1 hp with rfl | hmem
      · exact hinv (c2, d) (List.mem_cons_self _ _)
      · exact ih (fun q hq => hinv q (List.mem_cons_of_mem _ hq)) p hmem

/-- The invariant holds after folding any list of per-ZIP counts. -/
theorem foldAgg_reflex (rows : List MarketRow) (records : List RetailerEntry)
    (zm : ZipMap) :
    ∀ cm : CityMap,
      (∀ p ∈ cm,
        p.2.is_reflex_market = p.2.zip_codes.any (fun w => (allMarketZips rows).contains w)) →
      ∀ p ∈ zm.foldl
          (fun cm q => aggStep rows records (allMarketZips rows) cm q.1 q.2) cm,
        p.2.is_reflex_market = p.2.zip_codes.any (fun w => (allMarketZips rows).contains w) := by
  induction zm with
  | nil => intro cm hinv; simpa using hinv
  | cons q t ih =>
    intro cm hinv
    simp only [List.foldl_cons]
    exact ih _ (updateCity_reflex (allMarketZips rows) cm _ _ _ _ hinv)

/-- The sample stores and market row of the spec's aggregation example. -/
def storeA : StoreRec :=
  { name := "A", formatted_address := "10001", address := "", city := "", state := "" }

/-- The second sample store, at a ZIP absent from every market row. -/
def storeB : StoreRec :=
  { name := "B", formatted_address := "10002", address := "", city := "", state := "" }

/-- The single uploaded market entry of the example. -/
def marketNYC : MarketRow :=
  { city := "NYC", state := "NY", zipCodesField := "10001", zipCodeField := "" }

/-- C3: on the spec's example — two stores "A" at ZIP 10001, one store "B" at
ZIP 10002, one market entry (NYC, NY, 10001) — `analyze` produces the NYC row
with retailer label "A (2)", two total stores and the reflex flag, and a
synthetic "ZIP 10002" row; and in general a city's reflex flag is set iff some
ZIP of the city occurs in the uploaded market ZIP set. -/
theorem analyze_aggregation :
    analyze [marketNYC] [RetailerEntry.newStyle [storeA, storeA, storeB]] =
      [{ city := "NYC", state := "NY", prioritized_zip_codes := "10001",
         retailers := "A (2)", total_stores := 2, is_reflex_market := true },
       { city := "ZIP 10002", state := "", prioritized_zip_codes := "10002",
         retailers := "B", total_stores := 1, is_reflex_market := false }] ∧
    ∀ (rows : List MarketRow) (records : List RetailerEntry),
      ∀ p ∈ buildCityMap rows records,
        p.2.is_reflex_market
          = p.2.zip_codes.any (fun w => (allMarketZips rows).contains w) := by
  constructor
  · decide
  · intro rows records
    exact foldAgg_reflex rows records (buildZipMap records) [] (by simp)

/-- Witness for C3's general part at the NYC entry of the example. -/
theorem analyze_aggregation_witness :
    ({ retailers := [("A", 2)], zip_codes := ["10001"], is_reflex_market := true,
       state := "NY" } : CityData).is_reflex_market
      = ({ retailers := [("A", 2)], zip_codes := ["10001"], is_reflex_market := true,
           state := "NY" } : CityData).zip_codes.any
          (fun w => (allMarketZips [marketNYC]).contains w) :=
  analyze_aggregation.2 [marketNYC] [RetailerEntry.newStyle [storeA, storeA, storeB]]
    ("NYC",
      { retailers := [("A", 2)], zip_codes := ["10001"], is_reflex_market := true,
        state := "NY" })
    (by decide)

/-- Inserting a row into a sorted list commutes with filtering on an exact
total-stores value: rows the insertion passes over have strictly greater totals,
so they never share the filtered key. -/
theorem filter_orderedInsert_key (t : Nat) (a : ResultRow) (l : List ResultRow) :
    (List.orderedInsert resultsLE a l).filter (fun x => x.total_stores == t)
      = if a.total_stores == t
        then a :: l.filter (fun x => x.total_stores == t)
        else l.filter (fun x => x.total_stores == t) := by
  induction l with
  | nil =>
    by_cases ha : (a.total_stores == t) = true <;>
      simp [List.orderedInsert, List.filter, ha]
  | cons b l ih =>
    simp only [List.orderedInsert]
    by_cases hr : resultsLE a b
    · rw [if_pos hr]
      by_cases ha : (a.total_stores == t) = true <;>
        by_cases hb : (b.total_stores == t) = true <;>
          simp [List.filter_cons, ha, hb]
    · rw [if_neg hr]
      by_cases ha : (a.total_stores == t) = true <;>
        by_cases hb : (b.total_stores == t) = true
      · exfalso
        apply hr
        simp only [beq_iff_eq] at ha hb
        unfold resultsLE
        omega
      · simp [List.filter_cons, ha, hb, ih]
      · simp [List.filter_cons, ha, hb, ih]
      · simp [List.filter_cons, ha, hb, ih]

/-- The stable sort does not change the subsequence of rows at any fixed
total-stores value. -/
theorem filter_insertionSort_key (t : Nat) (l : List ResultRow) :
    (List.insertionSort resultsLE l).filter (fun x => x.total_stores == t)
      = l.filter (fun x => x.total_stores == t) := by
  induction l with
  | nil => rfl
  | cons a l ih =>
    simp only [List.insertionSort]
    rw [filter_orderedInsert_key, ih, List.filter_cons]

/-- C5: the rows produced by `analyze` are sorted by total stores descending,
and rows with equal total stores keep their encounter order: for every total
value, the filtered subsequence of the output equals the filtered subsequence
of the pre-sort rows. -/
theorem analyze_sorted_descending (markets_rows : List MarketRow)
    (retailer_records : List RetailerEntry) :
    (analyze markets_rows retailer_records).Sorted resultsLE ∧
    ∀ t : Nat,
      (analyze markets_rows retailer_records).filter (fun x => x.total_stores == t)
        = (analyzeRows markets_rows retailer_records).filter
            (fun x => x.total_stores == t) := by
  constructor
  · exact List.sorted_insertionSort resultsLE _
  · intro t
    exact filter_insertionSort_key t _

end MarketResearch
